import Mathlib

/-!
Verification of the CCP (Connector-to-Connector Protocol) codec
(`src/index.ts` of `ilp-protocol-ccp`), as a shallow embedding.

Byte buffers are `List Nat` (each entry a byte value).  TypeScript strings
are `List Nat` of Unicode code points.  The external envelope codec
(`ilp-packet`) is treated at the record level: serializers produce the
`IlpPrepare` record handed to `serializeIlpPrepare`, and deserializers
consume the record produced by `deserializeIlpPrepare`, since the claims
assume the external envelope codec round-trips.  Wall-clock time
(`Date.now()`) is an explicit `Int` millisecond parameter.
-/

/-- Concatenate the encodings of the elements of a list. -/
def joinMap (f : α → List Nat) : List α → List Nat
  | [] => []
  | a :: l => f a ++ joinMap f l

/-- Code points of a Lean string literal, used for literal message texts. -/
def strToCodes (s : String) : List Nat :=
  s.toList.map Char.toNat

/-! ## Primitive codec (model of the external `oer-utils` Reader/Writer)

Modelled from the spec (section 6): the external primitive codec reads and
writes unsigned 8/16/32-bit big-endian integers, variable-length unsigned
integers, length-prefixed byte strings and fixed-length raw byte spans.
-/

/-- Big-endian bytes of `n`, minimal length, `[0]` for `0`. -/
def uintBytes (n : Nat) : List Nat :=
  if n < 256 then [n] else uintBytes (n / 256) ++ [n % 256]
termination_by n
decreasing_by exact Nat.div_lt_self (by omega) (by omega)

/-- Big-endian value of a byte list. -/
def beFold (l : List Nat) : Nat :=
  l.foldl (fun a b => a * 256 + b) 0

/-- OER length determinant: one byte below 128, else a length-of-length
byte with the high bit set followed by the big-endian length. -/
def lenDeterminant (n : Nat) : List Nat :=
  if n < 128 then [n] else (128 + (uintBytes n).length) :: uintBytes n

def writeUInt8 (n : Nat) : List Nat := [n % 256]

def writeUInt16 (n : Nat) : List Nat := [n / 256 % 256, n % 256]

def writeUInt32 (n : Nat) : List Nat :=
  [n / 16777216 % 256, n / 65536 % 256, n / 256 % 256, n % 256]

def writeVarOctetString (b : List Nat) : List Nat :=
  lenDeterminant b.length ++ b

def writeVarUInt (n : Nat) : List Nat :=
  writeVarOctetString (uintBytes n)

def readUInt8 : List Nat → Option (Nat × List Nat)
  | b :: r => some (b, r)
  | _ => none

def readUInt16 : List Nat → Option (Nat × List Nat)
  | b0 :: b1 :: r => some (b0 * 256 + b1, r)
  | _ => none

def readUInt32 : List Nat → Option (Nat × List Nat)
  | b0 :: b1 :: b2 :: b3 :: r => some (((b0 * 256 + b1) * 256 + b2) * 256 + b3, r)
  | _ => none

/-- Read exactly `n` raw bytes (`reader.read(n)`). -/
def readExact (n : Nat) (s : List Nat) : Option (List Nat × List Nat) :=
  if n ≤ s.length then some (s.take n, s.drop n) else none

/-- Read an OER length determinant. -/
def readLength : List Nat → Option (Nat × List Nat)
  | [] => none
  | b :: r =>
    if b < 128 then some (b, r)
    else do
      let (lb, r2) ← readExact (b - 128) r
      some (beFold lb, r2)

def readVarOctetString (s : List Nat) : Option (List Nat × List Nat) := do
  let (n, r) ← readLength s
  readExact n r

def readVarUInt (s : List Nat) : Option (Nat × List Nat) := do
  let (b, r) ← readVarOctetString s
  some (beFold b, r)

/-- Repeat a reader a fixed number of times. -/
def readCount (rd : List Nat → Option (α × List Nat)) :
    Nat → List Nat → Option (List α × List Nat)
  | 0, s => some ([], s)
  | n + 1, s => do
    let (a, s1) ← rd s
    let (l, s2) ← readCount rd n s1
    some (a :: l, s2)

theorem readExact_append {b : List Nat} (rest : List Nat) (h : b.length = n) :
    readExact n (b ++ rest) = some (b, rest) := by
  subst h
  simp [readExact]

theorem uintBytes_ne_nil (n : Nat) : uintBytes n ≠ [] := by
  unfold uintBytes
  split <;> simp

theorem beFold_uintBytes (n : Nat) : beFold (uintBytes n) = n := by
  induction n using Nat.strong_induction_on with
  | _ n ih =>
    unfold uintBytes
    split
    · simp [beFold]
    · rename_i h
      rw [beFold, List.foldl_append]
      simp only [List.foldl_cons, List.foldl_nil]
      have h2 := ih (n / 256) (Nat.div_lt_self (by omega) (by omega))
      rw [beFold] at h2
      rw [h2]
      omega

theorem readLength_lenDeterminant (n : Nat) (rest : List Nat) :
    readLength (lenDeterminant n ++ rest) = some (n, rest) := by
  unfold lenDeterminant
  split
  · simp [readLength]
    omega
  · simp only [List.cons_append, readLength]
    rw [if_neg (by omega)]
    have h1 : 128 + (uintBytes n).length - 128 = (uintBytes n).length := by omega
    rw [h1, readExact_append rest rfl]
    simp [beFold_uintBytes]

theorem readVarOctetString_write (b rest : List Nat) :
    readVarOctetString (writeVarOctetString b ++ rest) = some (b, rest) := by
  rw [writeVarOctetString, List.append_assoc, readVarOctetString,
    readLength_lenDeterminant]
  simp [readExact_append rest rfl]

theorem readVarUInt_write (n : Nat) (rest : List Nat) :
    readVarUInt (writeVarUInt n ++ rest) = some (n, rest) := by
  rw [writeVarUInt, readVarUInt, readVarOctetString_write]
  simp [beFold_uintBytes]

theorem readUInt8_write (n : Nat) (rest : List Nat) (h : n < 256) :
    readUInt8 (writeUInt8 n ++ rest) = some (n, rest) := by
  simp [writeUInt8, readUInt8, Nat.mod_eq_of_lt h]

theorem readUInt16_write (n : Nat) (rest : List Nat) (h : n < 65536) :
    readUInt16 (writeUInt16 n ++ rest) = some (n, rest) := by
  simp [writeUInt16, readUInt16]
  omega

theorem readUInt32_write (n : Nat) (rest : List Nat) (h : n < 4294967296) :
    readUInt32 (writeUInt32 n ++ rest) = some (n, rest) := by
  simp [writeUInt32, readUInt32]
  omega

theorem readCount_joinMap {α : Type} (rd : List Nat → Option (α × List Nat))
    (wr : α → List Nat) (l : List α) (rest : List Nat)
    (h : ∀ a ∈ l, ∀ r, rd (wr a ++ r) = some (a, r)) :
    readCount rd l.length (joinMap wr l ++ rest) = some (l, rest) := by
  induction l with
  | nil => simp [joinMap, readCount]
  | cons a l ih =>
    simp only [joinMap, List.length_cons, readCount, List.append_assoc]
    rw [h a (by simp)]
    simp only [Option.bind_eq_bind, Option.some_bind]
    rw [ih (fun x hx r => h x (by simp [hx]) r)]
    rfl

/-! ## UUID codec

Modelled from the spec: the repository's `./uuid` module (`readUuid`,
`writeUuid`) is imported by `src/index.ts` but its source file is not part
of the core sources.  Spec section 4.1: encode maps 16 raw bytes to the
canonical lowercase hyphenated 36-character string; decode maps such a
string back to 16 raw bytes.
-/

/-- Lowercase hex digit character code of `d < 16`. -/
def toHexDigit (d : Nat) : Nat :=
  if d < 10 then 48 + d else 87 + d

/-- Two lowercase hex digit character codes of a byte. -/
def byteToHex (b : Nat) : List Nat :=
  [toHexDigit (b / 16), toHexDigit (b % 16)]

/-- Lowercase hex string (as character codes) of a byte list. -/
def bytesToHex (l : List Nat) : List Nat :=
  (l.map byteToHex).flatten

/-- Canonical lowercase hyphenated UUID string (as character codes) of
16 bytes: groups of 4, 2, 2, 2 and 6 bytes separated by hyphens (45). -/
def bytesToUuid (b : List Nat) : List Nat :=
  bytesToHex (b.take 4) ++ [45]
    ++ bytesToHex ((b.drop 4).take 2) ++ [45]
    ++ bytesToHex ((b.drop 6).take 2) ++ [45]
    ++ bytesToHex ((b.drop 8).take 2) ++ [45]
    ++ bytesToHex (b.drop 10)

/-- Numeric value of a lowercase hex digit character code. -/
def hexVal (c : Nat) : Nat :=
  if c < 58 then c - 48 else c - 87

/-- Pair up hex digit character codes into bytes. -/
def hexPairs : List Nat → List Nat
  | a :: b :: r => (hexVal a * 16 + hexVal b) :: hexPairs r
  | _ => []

/-- Modelled from the spec: `writeUuid` strips the hyphens from the UUID
string and writes the 16 bytes named by the hex digit pairs. -/
def uuidToBytes (s : List Nat) : List Nat :=
  hexPairs (s.filter (fun c => c ≠ 45))

theorem hexVal_toHexDigit (d : Nat) (h : d < 16) : hexVal (toHexDigit d) = d := by
  unfold hexVal toHexDigit
  split <;> split <;> omega

theorem toHexDigit_ne_45 (d : Nat) : toHexDigit d ≠ 45 := by
  unfold toHexDigit
  split <;> omega

theorem hexPairs_byteToHex (b : Nat) (h : b < 256) (r : List Nat) :
    hexPairs (byteToHex b ++ r) = b :: hexPairs r := by
  simp only [byteToHex, List.cons_append, List.nil_append, hexPairs]
  rw [hexVal_toHexDigit _ (by omega), hexVal_toHexDigit _ (by omega)]
  congr 1
  omega

theorem hexPairs_bytesToHex (b : List Nat) (h : ∀ x ∈ b, x < 256) :
    hexPairs (bytesToHex b) = b := by
  induction b with
  | nil => rfl
  | cons x l ih =>
    have ht := ih (fun y hy => h y (by simp [hy]))
    simp only [bytesToHex, List.map_cons, List.flatten_cons] at ht ⊢
    rw [hexPairs_byteToHex x (h x (by simp)), ht]

theorem filter_bytesToHex (b : List Nat) :
    (bytesToHex b).filter (fun c => c ≠ 45) = bytesToHex b := by
  rw [List.filter_eq_self]
  intro c hc
  simp only [bytesToHex, List.mem_flatten, List.mem_map] at hc
  obtain ⟨l, ⟨x, _, hl⟩, hcl⟩ := hc
  subst hl
  simp only [byteToHex, List.mem_cons, List.not_mem_nil, or_false] at hcl
  rcases hcl with h | h <;> simp [h, toHexDigit_ne_45]

theorem bytesToHex_append (l1 l2 : List Nat) :
    bytesToHex (l1 ++ l2) = bytesToHex l1 ++ bytesToHex l2 := by
  simp [bytesToHex]

theorem uuidToBytes_bytesToUuid (b : List Nat) (hb : ∀ x ∈ b, x < 256) :
    uuidToBytes (bytesToUuid b) = b := by
  have f46 : b.take 4 ++ (b.drop 4).take 2 = b.take 6 := by
    have h : (b.drop 4).take 2 = (b.take 6).drop 4 := by rw [List.drop_take]
    have h2 : (b.take 6).take 4 = b.take 4 := by
      rw [List.take_take]
      congr 1
    rw [← h2, h, List.take_append_drop]
  have f68 : b.take 6 ++ (b.drop 6).take 2 = b.take 8 := by
    have h : (b.drop 6).take 2 = (b.take 8).drop 6 := by rw [List.drop_take]
    have h2 : (b.take 8).take 6 = b.take 6 := by
      rw [List.take_take]
      congr 1
    rw [← h2, h, List.take_append_drop]
  have f810 : b.take 8 ++ (b.drop 8).take 2 = b.take 10 := by
    have h : (b.drop 8).take 2 = (b.take 10).drop 8 := by rw [List.drop_take]
    have h2 : (b.take 10).take 8 = b.take 8 := by
      rw [List.take_take]
      congr 1
    rw [← h2, h, List.take_append_drop]
  have h45 : List.filter (fun c => c ≠ 45) ([45] : List Nat) = [] := by decide
  rw [uuidToBytes, bytesToUuid]
  simp only [List.filter_append, h45, List.nil_append, List.append_nil]
  simp only [filter_bytesToHex]
  rw [← bytesToHex_append, f46, ← bytesToHex_append, f68, ← bytesToHex_append, f810,
    ← bytesToHex_append, List.take_append_drop]
  exact hexPairs_bytesToHex b hb

/-! ## String codecs (model of Node `Buffer` encodings, external)

`asciiEncode` models `Buffer.from(s, 'ascii')` (each UTF-16 code unit
masked to a byte), `asciiDecode` models `buffer.toString('ascii')` (each
byte masked to 7 bits).  `utf8Encode`/`utf8Decode` model the `'utf8'`
encoding over Unicode code points; the replacement-character handling of
invalid byte sequences is approximate, valid sequences decode exactly. -/

def asciiEncode (s : List Nat) : List Nat := s.map (fun c => c % 256)

def asciiDecode (b : List Nat) : List Nat := b.map (fun c => c % 128)

def utf8EncodeChar (c : Nat) : List Nat :=
  if c < 128 then [c]
  else if c < 2048 then [192 + c / 64, 128 + c % 64]
  else if c < 65536 then [224 + c / 4096, 128 + c / 64 % 64, 128 + c % 64]
  else [240 + c / 262144, 128 + c / 4096 % 64, 128 + c / 64 % 64, 128 + c % 64]

def utf8Encode (s : List Nat) : List Nat :=
  (s.map utf8EncodeChar).flatten

mutual

/-- UTF-8 decoder: dispatch on a lead byte. -/
def utf8Decode : List Nat → List Nat
  | [] => []
  | b :: rest =>
    if b < 128 then b :: utf8Decode rest
    else if b < 192 then 65533 :: utf8Decode rest
    else if b < 224 then utf8DecodeAux 1 (b - 192) rest
    else if b < 240 then utf8DecodeAux 2 (b - 224) rest
    else utf8DecodeAux 3 (b - 240) rest
termination_by s => s.length

/-- UTF-8 decoder: consume `need` continuation bytes into `acc`. -/
def utf8DecodeAux : Nat → Nat → List Nat → List Nat
  | _, _, [] => [65533]
  | need, acc, b :: rest =>
    if 128 ≤ b ∧ b < 192 then
      if need ≤ 1 then (acc * 64 + (b - 128)) :: utf8Decode rest
      else utf8DecodeAux (need - 1) (acc * 64 + (b - 128)) rest
    else 65533 :: utf8Decode rest
termination_by _ _ s => s.length

end

theorem utf8Decode_encodeChar (c : Nat) (rest : List Nat) :
    utf8Decode (utf8EncodeChar c ++ rest) = c :: utf8Decode rest := by
  unfold utf8EncodeChar
  split
  · rename_i h
    simp only [List.cons_append, List.nil_append]
    rw [utf8Decode, if_pos h]
  · split
    · rename_i h1 h2
      simp only [List.cons_append, List.nil_append]
      rw [utf8Decode, if_neg (by omega), if_neg (by omega), if_pos (by omega),
        utf8DecodeAux, if_pos (by omega), if_pos (by omega)]
      have hv : (192 + c / 64 - 192) * 64 + (128 + c % 64 - 128) = c := by omega
      rw [hv]
    · split
      · rename_i h1 h2 h3
        simp only [List.cons_append, List.nil_append]
        rw [utf8Decode, if_neg (by omega), if_neg (by omega), if_neg (by omega),
          if_pos (by omega), utf8DecodeAux, if_pos (by omega), if_neg (by omega),
          utf8DecodeAux, if_pos (by omega), if_pos (by omega)]
        have hv : ((224 + c / 4096 - 224) * 64 + (128 + c / 64 % 64 - 128)) * 64
            + (128 + c % 64 - 128) = c := by omega
        rw [hv]
      · rename_i h1 h2 h3
        simp only [List.cons_append, List.nil_append]
        rw [utf8Decode, if_neg (by omega), if_neg (by omega), if_neg (by omega),
          if_neg (by omega), utf8DecodeAux, if_pos (by omega), if_neg (by omega),
          utf8DecodeAux, if_pos (by omega), if_neg (by omega),
          utf8DecodeAux, if_pos (by omega), if_pos (by omega)]
        have hv : (((240 + c / 262144 - 240) * 64 + (128 + c / 4096 % 64 - 128)) * 64
            + (128 + c / 64 % 64 - 128)) * 64 + (128 + c % 64 - 128) = c := by omega
        rw [hv]

theorem utf8Decode_encode (s : List Nat) : utf8Decode (utf8Encode s) = s := by
  induction s with
  | nil => rw [utf8Encode]; simp [utf8Decode]
  | cons c l ih =>
    rw [utf8Encode] at ih ⊢
    simp only [List.map_cons, List.flatten_cons]
    rw [utf8Decode_encodeChar, ih]

theorem utf8Decode_of_ascii (s : List Nat) (h : ∀ c ∈ s, c < 128) :
    utf8Decode s = s := by
  induction s with
  | nil => rw [utf8Decode]
  | cons c l ih =>
    rw [utf8Decode, if_pos (h c (by simp))]
    rw [ih (fun x hx => h x (by simp [hx]))]

theorem asciiDecode_encode (s : List Nat) (h : ∀ c ∈ s, c < 128) :
    asciiDecode (asciiEncode s) = s := by
  induction s with
  | nil => rfl
  | cons c l ih =>
    have hc := h c (by simp)
    have ht := ih (fun x hx => h x (by simp [hx]))
    simp only [asciiEncode, asciiDecode, List.map_cons] at ht ⊢
    rw [ht]
    congr 1
    omega

/-! ## Data model (`src/index.ts`)

TypeScript strings are `List Nat` of code points; `Buffer` values are
`List Nat` of bytes.  The source field `prefix` of `CcpRoute` is named
`pfx` here (`prefix` is reserved in Lean).  The tagged union
`CcpRoutePropBuffer | CcpRoutePropString` (discriminated by `isUtf8`) is
the sum type `CcpRoutePropValue`; `isUtf8` is its discriminant. -/

structure CcpRouteControlRequest where
  speaker : List Nat
  lastKnownRoutingTableId : List Nat
  lastKnownEpoch : Nat
  features : List (List Nat)
deriving DecidableEq

inductive CcpRoutePropValue where
  | buffer (b : List Nat)
  | text (s : List Nat)
deriving DecidableEq

structure CcpRouteProp where
  isWellKnown : Bool
  isTransitive : Bool
  isPartial : Bool
  id : Nat
  value : CcpRoutePropValue
deriving DecidableEq

/-- Discriminant of the `CcpRouteProp` value union. -/
def CcpRouteProp.isUtf8 (p : CcpRouteProp) : Bool :=
  match p.value with
  | .text _ => true
  | .buffer _ => false

structure CcpRoute where
  pfx : List Nat
  path : List (List Nat)
  auth : List Nat
  props : List CcpRouteProp
deriving DecidableEq

structure CcpRouteUpdateRequest where
  routingTableId : List Nat
  currentEpochIndex : Nat
  fromEpochIndex : Nat
  toEpochIndex : Nat
  newRoutes : List CcpRoute
  withdrawnRoutes : List (List Nat)
deriving DecidableEq

/-- The record handed to / produced by the external `ilp-packet` prepare
codec.  `expiresAt` is the millisecond timestamp `Number(date)`. -/
structure IlpPrepare where
  amount : String
  destination : String
  executionCondition : List Nat
  expiresAt : Int
  data : List Nat
deriving DecidableEq

/-- The record handed to / produced by the external `ilp-packet` fulfill
codec. -/
structure IlpFulfill where
  fulfillment : List Nat
  data : List Nat
deriving DecidableEq

/-- Errors raised by the codec.  `protocolMismatch` is the source's
`TypeError` for a wrong destination; `formatError` stands for the
external reader's errors on truncated or malformed payload bytes. -/
inductive CcpError where
  | protocolMismatch (msg : String)
  | authenticationError (msg : String)
  | expired (msg : String)
  | validationError (msg : List Nat)
  | formatError
deriving DecidableEq

def CCP_CONTROL_DESTINATION : String := "peer.route.control"

def CCP_UPDATE_DESTINATION : String := "peer.route.update"

/-- `Buffer.alloc(32)`: 32 zero bytes. -/
def PEER_PROTOCOL_FULFILLMENT : List Nat := List.replicate 32 0

/-- The bytes of base64 `Zmh6rfhivXdsj8GLjp+OIAiXFIVu4jOzkCpZHQ1fKSU=`. -/
def PEER_PROTOCOL_CONDITION : List Nat :=
  [102, 104, 122, 173, 248, 98, 189, 119, 108, 143, 193, 139, 142, 159, 142, 32,
   8, 151, 20, 133, 110, 226, 51, 179, 144, 42, 89, 29, 13, 95, 41, 37]

def PEER_PROTOCOL_EXPIRY_DURATION : Int := 60000

/-! ## Route control codec -/

/-- `reader.readVarOctetString().toString('ascii')`. -/
def readAsciiString (t : List Nat) : Option (List Nat × List Nat) := do
  let (b, r) ← readVarOctetString t
  some (asciiDecode b, r)

/-- `reader.readVarOctetString().toString('utf8')`. -/
def readUtf8String (t : List Nat) : Option (List Nat × List Nat) := do
  let (b, r) ← readVarOctetString t
  some (utf8Decode b, r)

/-- Payload parser of `deserializeCcpRouteControlRequest` (the `Reader`
part, after the envelope checks). -/
def parseControlPayload (data : List Nat) :
    Option (CcpRouteControlRequest × List Nat) := do
  let (sp, r1) ← readAsciiString data
  let (uuidB, r2) ← readExact 16 r1
  let (epoch, r3) ← readUInt32 r2
  let (fc, r4) ← readVarUInt r3
  let (features, r5) ← readCount readUtf8String fc r4
  some ({ speaker := sp,
          lastKnownRoutingTableId := bytesToUuid uuidB,
          lastKnownEpoch := epoch,
          features := features }, r5)

def deserializeCcpRouteControlRequest (now : Int) (ilp : IlpPrepare) :
    Except CcpError CcpRouteControlRequest :=
  if ilp.destination ≠ CCP_CONTROL_DESTINATION then
    .error (.protocolMismatch "packet is not a CCP route control request.")
  else if ilp.executionCondition ≠ PEER_PROTOCOL_CONDITION then
    .error (.authenticationError
      "packet does not contain correct condition for a peer protocol request.")
  else if now > ilp.expiresAt then
    .error (.expired "CCP route control request packet is expired.")
  else
    match parseControlPayload ilp.data with
    | some (r, _) => .ok r
    | none => .error .formatError

/-- Payload bytes written by `serializeCcpRouteControlRequest`. -/
def controlPayloadBytes (request : CcpRouteControlRequest) : List Nat :=
  writeVarOctetString (asciiEncode request.speaker)
    ++ uuidToBytes request.lastKnownRoutingTableId
    ++ writeUInt32 request.lastKnownEpoch
    ++ writeVarUInt request.features.length
    ++ joinMap (fun f => writeVarOctetString (utf8Encode f)) request.features

def serializeCcpRouteControlRequest (now : Int)
    (request : CcpRouteControlRequest) : IlpPrepare :=
  { amount := "0",
    destination := CCP_CONTROL_DESTINATION,
    executionCondition := PEER_PROTOCOL_CONDITION,
    expiresAt := now + PEER_PROTOCOL_EXPIRY_DURATION,
    data := controlPayloadBytes request }

/-! ## Route update codec -/

/-- The metadata byte emitted for a route property: bit 7 `isWellKnown`,
bit 6 `isTransitive` (only when not well-known), bit 5 `isPartial` (only
when transitive and not well-known), bit 4 `isUtf8`. -/
def propMeta (p : CcpRouteProp) : Nat :=
  (if p.isWellKnown then 128 else 0)
    + (if p.isWellKnown then 0
       else (if p.isTransitive then 64 else 0)
         + (if p.isTransitive then (if p.isPartial then 32 else 0) else 0))
    + (if p.isUtf8 then 16 else 0)

/-- The value bytes of a route property: the buffer itself, or the UTF-8
encoding of the text. -/
def propValueBytes (p : CcpRouteProp) : List Nat :=
  match p.value with
  | .buffer b => b
  | .text s => utf8Encode s

/-- Bytes emitted for one route property. -/
def serializeProp (p : CcpRouteProp) : List Nat :=
  writeUInt8 (propMeta p) ++ writeUInt16 p.id
    ++ writeVarOctetString (propValueBytes p)

/-- Bytes emitted for one route (when its auth is well-formed). -/
def routeBytes (r : CcpRoute) : List Nat :=
  writeVarOctetString (asciiEncode r.pfx)
    ++ writeVarUInt r.path.length
    ++ joinMap (fun hop => writeVarOctetString (asciiEncode hop)) r.path
    ++ r.auth
    ++ writeVarUInt r.props.length
    ++ joinMap serializeProp r.props

/-- One route: the auth length check of the source
(`route auth must be 32 bytes`) then the route bytes. -/
def serializeRoute (r : CcpRoute) : Except CcpError (List Nat) :=
  if r.auth.length ≠ 32 then
    .error (.validationError
      (strToCodes "route auth must be 32 bytes. prefix=" ++ r.pfx))
  else
    .ok (routeBytes r)

def serializeRoutes : List CcpRoute → Except CcpError (List Nat)
  | [] => .ok []
  | r :: rs => do
    let b ← serializeRoute r
    let bs ← serializeRoutes rs
    .ok (b ++ bs)

def serializeCcpRouteUpdateRequest (now : Int)
    (request : CcpRouteUpdateRequest) : Except CcpError IlpPrepare := do
  let rb ← serializeRoutes request.newRoutes
  .ok { amount := "0",
        destination := CCP_UPDATE_DESTINATION,
        executionCondition := PEER_PROTOCOL_CONDITION,
        expiresAt := now + PEER_PROTOCOL_EXPIRY_DURATION,
        data := uuidToBytes request.routingTableId
          ++ writeUInt32 request.currentEpochIndex
          ++ writeUInt32 request.fromEpochIndex
          ++ writeUInt32 request.toEpochIndex
          ++ writeVarUInt request.newRoutes.length
          ++ rb
          ++ writeVarUInt request.withdrawnRoutes.length
          ++ joinMap (fun w => writeVarOctetString (asciiEncode w))
              request.withdrawnRoutes }

/-- Parser of one route property. -/
def parseProp (s : List Nat) : Option (CcpRouteProp × List Nat) := do
  let (meta, r1) ← readUInt8 s
  let (pid, r2) ← readUInt16 r1
  let (v, r3) ← readVarOctetString r2
  let value :=
    if meta &&& 16 ≠ 0 then CcpRoutePropValue.text (utf8Decode v)
    else CcpRoutePropValue.buffer v
  some ({ isWellKnown := meta &&& 128 ≠ 0,
          isTransitive := meta &&& 64 ≠ 0,
          isPartial := meta &&& 32 ≠ 0,
          id := pid,
          value := value }, r3)

/-- Parser of one route. -/
def parseRoute (s : List Nat) : Option (CcpRoute × List Nat) := do
  let (pfxS, r1) ← readAsciiString s
  let (plen, r2) ← readVarUInt r1
  let (path, r3) ← readCount readAsciiString plen r2
  let (auth, r4) ← readExact 32 r3
  let (pc, r5) ← readVarUInt r4
  let (props, r6) ← readCount parseProp pc r5
  some ({ pfx := pfxS, path := path, auth := auth, props := props }, r6)

/-- Payload parser of `deserializeCcpRouteUpdateRequest`. -/
def parseUpdatePayload (data : List Nat) :
    Option (CcpRouteUpdateRequest × List Nat) := do
  let (uuidB, r1) ← readExact 16 data
  let (cur, r2) ← readUInt32 r1
  let (fromE, r3) ← readUInt32 r2
  let (toE, r4) ← readUInt32 r3
  let (nrc, r5) ← readVarUInt r4
  let (newRoutes, r6) ← readCount parseRoute nrc r5
  let (wrc, r7) ← readVarUInt r6
  let (withdrawn, r8) ← readCount readUtf8String wrc r7
  some ({ routingTableId := bytesToUuid uuidB,
          currentEpochIndex := cur,
          fromEpochIndex := fromE,
          toEpochIndex := toE,
          newRoutes := newRoutes,
          withdrawnRoutes := withdrawn }, r8)

def deserializeCcpRouteUpdateRequest (now : Int) (ilp : IlpPrepare) :
    Except CcpError CcpRouteUpdateRequest :=
  if ilp.destination ≠ CCP_UPDATE_DESTINATION then
    .error (.protocolMismatch "packet is not a CCP route update request.")
  else if ilp.executionCondition ≠ PEER_PROTOCOL_CONDITION then
    .error (.authenticationError
      "packet does not contain correct condition for a peer protocol request.")
  else if now > ilp.expiresAt then
    .error (.expired "CCP route update request packet is expired.")
  else
    match parseUpdatePayload ilp.data with
    | some (r, _) => .ok r
    | none => .error .formatError

/-! ## Response codec -/

def deserializeCcpResponse (response : IlpFulfill) : Except CcpError Unit :=
  if PEER_PROTOCOL_FULFILLMENT ≠ response.fulfillment then
    .error (.authenticationError
      "CCP response does not contain the expected fulfillment.")
  else
    .ok ()

def serializeCcpResponse : IlpFulfill :=
  { fulfillment := PEER_PROTOCOL_FULFILLMENT, data := [] }

/-! ## Validity of requests

The declared ranges of the data model: ASCII-declared strings (speaker,
prefixes, hops, withdrawn routes) hold code points below 128; UTF-8
strings hold Unicode scalar values; identifiers are canonical lowercase
UUID strings; numeric fields are in their unsigned 16/32-bit ranges;
buffers hold bytes; auth is exactly 32 bytes; property flags obey the
dependency rule of spec section 4.3. -/

def ValidString (s : List Nat) : Prop := ∀ c ∈ s, c < 128

def ValidScalars (s : List Nat) : Prop :=
  ∀ c ∈ s, c < 55296 ∨ (57344 ≤ c ∧ c < 1114112)

def ValidBytes (b : List Nat) : Prop := ∀ x ∈ b, x < 256

def ValidUuidString (s : List Nat) : Prop :=
  ∃ b, b.length = 16 ∧ ValidBytes b ∧ s = bytesToUuid b

def ValidPropValue : CcpRoutePropValue → Prop
  | .buffer b => ValidBytes b
  | .text s => ValidScalars s

def ValidProp (p : CcpRouteProp) : Prop :=
  p.id < 65536
    ∧ (p.isTransitive = true → p.isWellKnown = false)
    ∧ (p.isPartial = true → p.isTransitive = true)
    ∧ ValidPropValue p.value

def ValidRoute (r : CcpRoute) : Prop :=
  ValidString r.pfx
    ∧ (∀ hop ∈ r.path, ValidString hop)
    ∧ r.auth.length = 32
    ∧ ValidBytes r.auth
    ∧ ∀ p ∈ r.props, ValidProp p

def ValidUpdate (u : CcpRouteUpdateRequest) : Prop :=
  ValidUuidString u.routingTableId
    ∧ u.currentEpochIndex < 4294967296
    ∧ u.fromEpochIndex < 4294967296
    ∧ u.toEpochIndex < 4294967296
    ∧ (∀ r ∈ u.newRoutes, ValidRoute r)
    ∧ ∀ w ∈ u.withdrawnRoutes, ValidString w

def ValidControl (r : CcpRouteControlRequest) : Prop :=
  ValidString r.speaker
    ∧ ValidUuidString r.lastKnownRoutingTableId
    ∧ r.lastKnownEpoch < 4294967296
    ∧ ∀ f ∈ r.features, ValidScalars f

theorem asciiEncode_of_ascii (s : List Nat) (h : ∀ c ∈ s, c < 128) :
    asciiEncode s = s := by
  induction s with
  | nil => rfl
  | cons c l ih =>
    have hc := h c (by simp)
    simp only [asciiEncode, List.map_cons] at ih ⊢
    rw [ih (fun x hx => h x (by simp [hx]))]
    congr 1
    omega

/-! ## Round-trip lemmas -/

theorem parseProp_bytes (m pid : Nat) (vb rest : List Nat) (hm : m < 256)
    (hpid : pid < 65536) :
    parseProp (writeUInt8 m ++ writeUInt16 pid ++ writeVarOctetString vb ++ rest)
      = some ({ isWellKnown := m &&& 128 ≠ 0,
                isTransitive := m &&& 64 ≠ 0,
                isPartial := m &&& 32 ≠ 0,
                id := pid,
                value := if m &&& 16 ≠ 0 then .text (utf8Decode vb)
                         else .buffer vb }, rest) := by
  rw [List.append_assoc, List.append_assoc]
  unfold parseProp
  rw [readUInt8_write m _ hm]
  simp only [Option.bind_eq_bind, Option.some_bind]
  rw [readUInt16_write pid _ hpid]
  simp only [Option.some_bind]
  rw [readVarOctetString_write]
  simp only [Option.some_bind]

theorem propMeta_bits (p : CcpRouteProp)
    (htr : p.isTransitive = true → p.isWellKnown = false)
    (hpa : p.isPartial = true → p.isTransitive = true) :
    decide (propMeta p &&& 128 ≠ 0) = p.isWellKnown
      ∧ decide (propMeta p &&& 64 ≠ 0) = p.isTransitive
      ∧ decide (propMeta p &&& 32 ≠ 0) = p.isPartial
      ∧ decide (propMeta p &&& 16 ≠ 0) = p.isUtf8
      ∧ propMeta p < 256 := by
  obtain ⟨wk, tr, pa, pid, v⟩ := p
  simp only [CcpRouteProp.isUtf8, propMeta] at *
  cases v <;> cases wk <;> cases tr <;> cases pa <;> simp_all <;> decide

theorem readAsciiString_write (s : List Nat) (h : ValidString s) (rest : List Nat) :
    readAsciiString (writeVarOctetString (asciiEncode s) ++ rest) = some (s, rest) := by
  rw [readAsciiString, readVarOctetString_write]
  simp only [Option.bind_eq_bind, Option.some_bind]
  rw [asciiDecode_encode s h]

theorem readUtf8String_writeUtf8 (s : List Nat) (rest : List Nat) :
    readUtf8String (writeVarOctetString (utf8Encode s) ++ rest) = some (s, rest) := by
  rw [readUtf8String, readVarOctetString_write]
  simp only [Option.bind_eq_bind, Option.some_bind]
  rw [utf8Decode_encode s]

theorem readUtf8String_writeAscii (s : List Nat) (h : ValidString s)
    (rest : List Nat) :
    readUtf8String (writeVarOctetString (asciiEncode s) ++ rest) = some (s, rest) := by
  rw [readUtf8String, readVarOctetString_write]
  simp only [Option.bind_eq_bind, Option.some_bind]
  rw [asciiEncode_of_ascii s h, utf8Decode_of_ascii s h]

theorem parseProp_serializeProp (p : CcpRouteProp) (h : ValidProp p)
    (rest : List Nat) :
    parseProp (serializeProp p ++ rest) = some (p, rest) := by
  obtain ⟨hid, htr, hpa, hv⟩ := h
  obtain ⟨hwk, htr2, hpa2, hu8, hm⟩ := propMeta_bits p htr hpa
  rw [serializeProp, parseProp_bytes (propMeta p) p.id (propValueBytes p) rest hm hid]
  cases hval : p.value with
  | buffer b =>
    have hfalse : p.isUtf8 = false := by rw [CcpRouteProp.isUtf8, hval]
    rw [hfalse] at hu8
    rw [if_neg (of_decide_eq_false hu8)]
    simp only [propValueBytes, hval]
    rw [hwk, htr2, hpa2, ← hval]
  | text t =>
    have htrue : p.isUtf8 = true := by rw [CcpRouteProp.isUtf8, hval]
    rw [htrue] at hu8
    rw [if_pos (of_decide_eq_true hu8)]
    simp only [propValueBytes, hval]
    rw [utf8Decode_encode t, hwk, htr2, hpa2, ← hval]

theorem parseRoute_routeBytes (r : CcpRoute) (h : ValidRoute r) (rest : List Nat) :
    parseRoute (routeBytes r ++ rest) = some (r, rest) := by
  obtain ⟨hpfx, hpath, hlen, hbytes, hprops⟩ := h
  rw [routeBytes]
  simp only [List.append_assoc]
  simp only [parseRoute, Option.bind_eq_bind]
  rw [readAsciiString_write r.pfx hpfx]
  simp only [Option.some_bind]
  rw [readVarUInt_write]
  simp only [Option.some_bind]
  rw [readCount_joinMap readAsciiString
    (fun hop => writeVarOctetString (asciiEncode hop)) r.path _
    (fun a ha rr => readAsciiString_write a (hpath a ha) rr)]
  simp only [Option.some_bind]
  rw [readExact_append _ hlen]
  simp only [Option.some_bind]
  rw [readVarUInt_write]
  simp only [Option.some_bind]
  rw [readCount_joinMap parseProp serializeProp r.props _
    (fun p hp rr => parseProp_serializeProp p (hprops p hp) rr)]
  simp only [Option.some_bind]

theorem serializeRoutes_ok (rs : List CcpRoute)
    (h : ∀ r ∈ rs, r.auth.length = 32) :
    serializeRoutes rs = .ok (joinMap routeBytes rs) := by
  induction rs with
  | nil => rfl
  | cons r rs ih =>
    have hr : r.auth.length = 32 := h r (by simp)
    simp only [serializeRoutes, serializeRoute]
    rw [if_neg (by omega)]
    rw [ih (fun x hx => h x (by simp [hx]))]
    rfl

theorem parseControlPayload_roundtrip (r : CcpRouteControlRequest)
    (h : ValidControl r) (rest : List Nat) :
    parseControlPayload (controlPayloadBytes r ++ rest) = some (r, rest) := by
  obtain ⟨hsp, ⟨b, hb16, hbb, hid⟩, hep, hfeat⟩ := h
  rw [controlPayloadBytes, hid, uuidToBytes_bytesToUuid b hbb]
  simp only [List.append_assoc]
  simp only [parseControlPayload, Option.bind_eq_bind]
  rw [readAsciiString_write r.speaker hsp]
  simp only [Option.some_bind]
  rw [readExact_append _ hb16]
  simp only [Option.some_bind]
  rw [readUInt32_write _ _ hep]
  simp only [Option.some_bind]
  rw [readVarUInt_write]
  simp only [Option.some_bind]
  rw [readCount_joinMap readUtf8String
    (fun f => writeVarOctetString (utf8Encode f)) r.features _
    (fun a _ rr => readUtf8String_writeUtf8 a rr)]
  simp only [Option.some_bind]
  rw [← hid]

theorem parseUpdatePayload_roundtrip (u : CcpRouteUpdateRequest)
    (h : ValidUpdate u) (rest : List Nat) :
    parseUpdatePayload (uuidToBytes u.routingTableId
        ++ writeUInt32 u.currentEpochIndex
        ++ writeUInt32 u.fromEpochIndex
        ++ writeUInt32 u.toEpochIndex
        ++ writeVarUInt u.newRoutes.length
        ++ joinMap routeBytes u.newRoutes
        ++ writeVarUInt u.withdrawnRoutes.length
        ++ joinMap (fun w => writeVarOctetString (asciiEncode w))
            u.withdrawnRoutes ++ rest) = some (u, rest) := by
  obtain ⟨⟨b, hb16, hbb, hid⟩, hcur, hfrom, hto, hroutes, hwd⟩ := h
  rw [hid, uuidToBytes_bytesToUuid b hbb]
  simp only [List.append_assoc]
  simp only [parseUpdatePayload, Option.bind_eq_bind]
  rw [readExact_append _ hb16]
  simp only [Option.some_bind]
  rw [readUInt32_write _ _ hcur]
  simp only [Option.some_bind]
  rw [readUInt32_write _ _ hfrom]
  simp only [Option.some_bind]
  rw [readUInt32_write _ _ hto]
  simp only [Option.some_bind]
  rw [readVarUInt_write]
  simp only [Option.some_bind]
  rw [readCount_joinMap parseRoute routeBytes u.newRoutes _
    (fun x hx rr => parseRoute_routeBytes x (hroutes x hx) rr)]
  simp only [Option.some_bind]
  rw [readVarUInt_write]
  simp only [Option.some_bind]
  rw [readCount_joinMap readUtf8String
    (fun w => writeVarOctetString (asciiEncode w)) u.withdrawnRoutes _
    (fun a ha rr => readUtf8String_writeAscii a (hwd a ha) rr)]
  simp only [Option.some_bind]
  rw [← hid]

theorem deserializeControl_fields (now : Int) (a : String) (e : Int)
    (d : List Nat) (hne : ¬ now > e) :
    deserializeCcpRouteControlRequest now
        ⟨a, CCP_CONTROL_DESTINATION, PEER_PROTOCOL_CONDITION, e, d⟩
      = match parseControlPayload d with
        | some (r, _) => .ok r
        | none => .error .formatError := by
  simp only [deserializeCcpRouteControlRequest]
  rw [if_neg (by simp), if_neg (by simp), if_neg hne]

theorem deserializeUpdate_fields (now : Int) (a : String) (e : Int)
    (d : List Nat) (hne : ¬ now > e) :
    deserializeCcpRouteUpdateRequest now
        ⟨a, CCP_UPDATE_DESTINATION, PEER_PROTOCOL_CONDITION, e, d⟩
      = match parseUpdatePayload d with
        | some (r, _) => .ok r
        | none => .error .formatError := by
  simp only [deserializeCcpRouteUpdateRequest]
  rw [if_neg (by simp), if_neg (by simp), if_neg hne]

/-- Round-trip of the control request codec, assuming the external
envelope codec round-trips (record level) and decode happens within the
expiry window. -/
theorem control_roundtrip (r : CcpRouteControlRequest) (h : ValidControl r)
    (now now' : Int) (ht : now' ≤ now + PEER_PROTOCOL_EXPIRY_DURATION) :
    deserializeCcpRouteControlRequest now' (serializeCcpRouteControlRequest now r)
      = .ok r := by
  simp only [serializeCcpRouteControlRequest]
  rw [deserializeControl_fields now' "0" (now + PEER_PROTOCOL_EXPIRY_DURATION)
    (controlPayloadBytes r) (by omega)]
  have hp := parseControlPayload_roundtrip r h []
  rw [List.append_nil] at hp
  rw [hp]

/-- Round-trip of the update request codec, assuming the external
envelope codec round-trips (record level) and decode happens within the
expiry window. -/
theorem update_roundtrip (u : CcpRouteUpdateRequest) (h : ValidUpdate u)
    (now now' : Int) (ht : now' ≤ now + PEER_PROTOCOL_EXPIRY_DURATION) :
    ∃ p, serializeCcpRouteUpdateRequest now u = .ok p
      ∧ deserializeCcpRouteUpdateRequest now' p = .ok u := by
  have hauth : ∀ x ∈ u.newRoutes, x.auth.length = 32 :=
    fun x hx => (h.2.2.2.2.1 x hx).2.2.1
  refine ⟨⟨"0", CCP_UPDATE_DESTINATION, PEER_PROTOCOL_CONDITION,
    now + PEER_PROTOCOL_EXPIRY_DURATION,
    uuidToBytes u.routingTableId
      ++ writeUInt32 u.currentEpochIndex
      ++ writeUInt32 u.fromEpochIndex
      ++ writeUInt32 u.toEpochIndex
      ++ writeVarUInt u.newRoutes.length
      ++ joinMap routeBytes u.newRoutes
      ++ writeVarUInt u.withdrawnRoutes.length
      ++ joinMap (fun w => writeVarOctetString (asciiEncode w))
          u.withdrawnRoutes⟩, ?_, ?_⟩
  · simp only [serializeCcpRouteUpdateRequest]
    rw [serializeRoutes_ok u.newRoutes hauth]
    rfl
  · rw [deserializeUpdate_fields now' "0"
      (now + PEER_PROTOCOL_EXPIRY_DURATION) _ (by omega)]
    have hp := parseUpdatePayload_roundtrip u h []
    rw [List.append_nil] at hp
    rw [hp]

theorem deserializeControl_expired_iff (p : IlpPrepare) (now : Int)
    (hd : p.destination = CCP_CONTROL_DESTINATION)
    (hc : p.executionCondition = PEER_PROTOCOL_CONDITION) :
    (∃ m, deserializeCcpRouteControlRequest now p = .error (.expired m))
      ↔ now > p.expiresAt := by
  simp only [deserializeCcpRouteControlRequest]
  rw [if_neg (by simp [hd]), if_neg (by simp [hc])]
  by_cases hexp : now > p.expiresAt
  · rw [if_pos hexp]
    exact ⟨fun _ => hexp, fun _ => ⟨_, rfl⟩⟩
  · rw [if_neg hexp]
    constructor
    · rintro ⟨m, hm⟩
      exfalso
      rcases hparse : parseControlPayload p.data with _ | ⟨r, rest⟩ <;>
        rw [hparse] at hm <;> simp at hm
    · intro h
      exact absurd h hexp

theorem deserializeUpdate_expired_iff (p : IlpPrepare) (now : Int)
    (hd : p.destination = CCP_UPDATE_DESTINATION)
    (hc : p.executionCondition = PEER_PROTOCOL_CONDITION) :
    (∃ m, deserializeCcpRouteUpdateRequest now p = .error (.expired m))
      ↔ now > p.expiresAt := by
  simp only [deserializeCcpRouteUpdateRequest]
  rw [if_neg (by simp [hd]), if_neg (by simp [hc])]
  by_cases hexp : now > p.expiresAt
  · rw [if_pos hexp]
    exact ⟨fun _ => hexp, fun _ => ⟨_, rfl⟩⟩
  · rw [if_neg hexp]
    constructor
    · rintro ⟨m, hm⟩
      exfalso
      rcases hparse : parseUpdatePayload p.data with _ | ⟨r, rest⟩ <;>
        rw [hparse] at hm <;> simp at hm
    · intro h
      exact absurd h hexp

instance (s : List Nat) : Decidable (ValidString s) :=
  inferInstanceAs (Decidable (∀ c ∈ s, c < 128))

instance (s : List Nat) : Decidable (ValidScalars s) :=
  inferInstanceAs (Decidable (∀ c ∈ s, c < 55296 ∨ (57344 ≤ c ∧ c < 1114112)))

instance (b : List Nat) : Decidable (ValidBytes b) :=
  inferInstanceAs (Decidable (∀ x ∈ b, x < 256))

instance : (v : CcpRoutePropValue) → Decidable (ValidPropValue v)
  | .buffer b => inferInstanceAs (Decidable (ValidBytes b))
  | .text s => inferInstanceAs (Decidable (ValidScalars s))

instance (p : CcpRouteProp) : Decidable (ValidProp p) :=
  inferInstanceAs (Decidable (p.id < 65536
    ∧ (p.isTransitive = true → p.isWellKnown = false)
    ∧ (p.isPartial = true → p.isTransitive = true)
    ∧ ValidPropValue p.value))

instance (r : CcpRoute) : Decidable (ValidRoute r) :=
  inferInstanceAs (Decidable (ValidString r.pfx
    ∧ (∀ hop ∈ r.path, ValidString hop)
    ∧ r.auth.length = 32
    ∧ ValidBytes r.auth
    ∧ ∀ p ∈ r.props, ValidProp p))

/-! ## Concrete example values (for witnesses)

Strings are spelled as explicit code point lists:
`[103, 46, 97, 108, 105, 99, 101]` is `"g.alice"`, `[103, 46, 101, 117]`
is `"g.eu"`, `[103, 46, 97]` is `"g.a"`, `[103, 46, 120]` is `"g.x"`. -/

/-- The spec's control request example: speaker `"g.alice"`, all-zero
routing table id, epoch `0`, no features. -/
def exControl : CcpRouteControlRequest :=
  { speaker := [103, 46, 97, 108, 105, 99, 101],
    lastKnownRoutingTableId := bytesToUuid (List.replicate 16 0),
    lastKnownEpoch := 0,
    features := [] }

theorem exControl_valid : ValidControl exControl :=
  ⟨by decide, ⟨List.replicate 16 0, by decide, by decide, rfl⟩, by decide,
    by decide⟩

/-- The spec's route property example: well-known, id `0`, empty buffer
value (metadata byte `0x80`). -/
def exProp : CcpRouteProp :=
  { isWellKnown := true, isTransitive := false, isPartial := false,
    id := 0, value := .buffer [] }

/-- A text-valued property with the transitive and partial flags set. -/
def exPropText : CcpRouteProp :=
  { isWellKnown := false, isTransitive := true, isPartial := true,
    id := 7, value := .text [955] }

/-- A route with prefix `"g.eu"`, one hop, all-zero auth and the two
example properties. -/
def exRoute : CcpRoute :=
  { pfx := [103, 46, 101, 117],
    path := [[103, 46, 97]],
    auth := List.replicate 32 0,
    props := [exProp, exPropText] }

/-- An update request exercising routes, properties and withdrawals. -/
def exUpdate : CcpRouteUpdateRequest :=
  { routingTableId := bytesToUuid (List.replicate 16 0),
    currentEpochIndex := 2,
    fromEpochIndex := 1,
    toEpochIndex := 2,
    newRoutes := [exRoute],
    withdrawnRoutes := [[103, 46, 120]] }

theorem exUpdate_valid : ValidUpdate exUpdate :=
  ⟨⟨List.replicate 16 0, by decide, by decide, rfl⟩, by decide, by decide,
    by decide, by decide, by decide⟩

/-- An update request whose epoch range runs backwards
(`fromEpochIndex = 5 > 3 = toEpochIndex`). -/
def exUpdateEpochs : CcpRouteUpdateRequest :=
  { routingTableId := bytesToUuid (List.replicate 16 0),
    currentEpochIndex := 7,
    fromEpochIndex := 5,
    toEpochIndex := 3,
    newRoutes := [],
    withdrawnRoutes := [] }

theorem exUpdateEpochs_valid : ValidUpdate exUpdateEpochs :=
  ⟨⟨List.replicate 16 0, by decide, by decide, rfl⟩, by decide, by decide,
    by decide, by decide, by decide⟩

/-- A route whose auth is empty (not 32 bytes). -/
def exRouteBad : CcpRoute :=
  { pfx := [103, 46, 101, 117], path := [], auth := [], props := [] }

/-- An update request containing a route with malformed auth. -/
def exUpdateBad : CcpRouteUpdateRequest :=
  { routingTableId := bytesToUuid (List.replicate 16 0),
    currentEpochIndex := 0,
    fromEpochIndex := 0,
    toEpochIndex := 0,
    newRoutes := [exRouteBad],
    withdrawnRoutes := [] }

theorem serializeRoutes_badAuth (rs : List CcpRoute)
    (h : ∃ r ∈ rs, r.auth.length ≠ 32) :
    ∃ m, serializeRoutes rs = .error (.validationError m)
      ∧ ∃ r ∈ rs, r.auth.length ≠ 32
        ∧ m = strToCodes "route auth must be 32 bytes. prefix=" ++ r.pfx := by
  induction rs with
  | nil =>
    obtain ⟨r, hr, _⟩ := h
    exact absurd hr (List.not_mem_nil r)
  | cons r rs ih =>
    by_cases hr : r.auth.length = 32
    · obtain ⟨x, hx, hxa⟩ := h
      have hx' : x ∈ rs := by
        rcases List.mem_cons.mp hx with h1 | h1
        · exact absurd (show x.auth.length = 32 by rw [h1]; exact hr) hxa
        · exact h1
      obtain ⟨m, hm, x2, hx2, hxa2, hme⟩ := ih ⟨x, hx', hxa⟩
      refine ⟨m, ?_, x2, List.mem_cons_of_mem r hx2, hxa2, hme⟩
      simp only [serializeRoutes, serializeRoute]
      rw [if_neg (by omega), hm]
      rfl
    · refine ⟨_, ?_, r, List.mem_cons_self r rs, hr, rfl⟩
      simp only [serializeRoutes, serializeRoute]
      rw [if_pos hr]
      rfl

theorem propMeta_lt (p : CcpRouteProp) : propMeta p < 256 := by
  obtain ⟨wk, tr, pa, pid, v⟩ := p
  cases v <;> cases wk <;> cases tr <;> cases pa <;>
    simp [propMeta, CcpRouteProp.isUtf8]

/-! ## Claims -/

/-- C1: for every valid `CcpRouteUpdateRequest` (auth exactly 32 bytes,
flags obeying the dependency rule, strings in their declared ranges),
deserializing the serialized request reproduces it exactly — routing
table id, the three epoch indices, routes with prefix, path order, auth,
properties in order with flag bits, id and value, and the withdrawn list
in order — assuming the external envelope codec round-trips (record
level) and decode happens within the expiry window. -/
theorem ccpUpdate_decode_encode (u : CcpRouteUpdateRequest)
    (hu : ValidUpdate u) (now now' : Int)
    (ht : now' ≤ now + PEER_PROTOCOL_EXPIRY_DURATION) :
    ∃ p, serializeCcpRouteUpdateRequest now u = .ok p
      ∧ deserializeCcpRouteUpdateRequest now' p = .ok u :=
  update_roundtrip u hu now now' ht

theorem ccpUpdate_decode_encode_witness :
    ValidUpdate exUpdate
      ∧ ∃ p, serializeCcpRouteUpdateRequest 0 exUpdate = .ok p
        ∧ deserializeCcpRouteUpdateRequest 60000 p = .ok exUpdate :=
  ⟨exUpdate_valid,
    ccpUpdate_decode_encode exUpdate exUpdate_valid 0 60000 (by decide)⟩

/-- C2 (amended): with the destination and condition checks passed, the
decoders raise `Expired` exactly when the decode-time clock is strictly
after the envelope's expiry timestamp (`Date.now() > expiresAt`); at the
expiry instant itself decoding does not raise `Expired`. -/
theorem ccpDecode_expired_iff_strictly_after (p q : IlpPrepare) (now : Int) :
    (p.destination = CCP_CONTROL_DESTINATION →
      p.executionCondition = PEER_PROTOCOL_CONDITION →
      ((∃ m, deserializeCcpRouteControlRequest now p = .error (.expired m))
        ↔ now > p.expiresAt))
    ∧ (q.destination = CCP_UPDATE_DESTINATION →
      q.executionCondition = PEER_PROTOCOL_CONDITION →
      ((∃ m, deserializeCcpRouteUpdateRequest now q = .error (.expired m))
        ↔ now > q.expiresAt)) :=
  ⟨fun hd hc => deserializeControl_expired_iff p now hd hc,
   fun hd hc => deserializeUpdate_expired_iff q now hd hc⟩

theorem ccpDecode_expired_iff_strictly_after_witness :
    (∃ m, deserializeCcpRouteControlRequest 6
        ⟨"0", CCP_CONTROL_DESTINATION, PEER_PROTOCOL_CONDITION, 5, []⟩
      = .error (.expired m))
    ∧ (∃ m, deserializeCcpRouteUpdateRequest 6
        ⟨"0", CCP_UPDATE_DESTINATION, PEER_PROTOCOL_CONDITION, 5, []⟩
      = .error (.expired m)) :=
  ⟨((ccpDecode_expired_iff_strictly_after
      ⟨"0", CCP_CONTROL_DESTINATION, PEER_PROTOCOL_CONDITION, 5, []⟩
      ⟨"0", CCP_UPDATE_DESTINATION, PEER_PROTOCOL_CONDITION, 5, []⟩ 6).1
        rfl rfl).mpr (by decide),
   ((ccpDecode_expired_iff_strictly_after
      ⟨"0", CCP_CONTROL_DESTINATION, PEER_PROTOCOL_CONDITION, 5, []⟩
      ⟨"0", CCP_UPDATE_DESTINATION, PEER_PROTOCOL_CONDITION, 5, []⟩ 6).2
        rfl rfl).mpr (by decide)⟩

/-- C2 (counterexample to the claim as stated): a control request
serialized at time 0 carries expiry timestamp 60000, and decoding it at
exactly that instant — "at or after the expiry" in the claim's words —
succeeds instead of raising `Expired`. -/
theorem ccpExpiry_at_instant_decodes :
    (serializeCcpRouteControlRequest 0 exControl).expiresAt = 60000
      ∧ deserializeCcpRouteControlRequest 60000
          (serializeCcpRouteControlRequest 0 exControl) = .ok exControl :=
  ⟨by decide, control_roundtrip exControl exControl_valid 0 60000 (by decide)⟩

/-- C3: serializing an update request containing a route whose auth is
not exactly 32 bytes raises `ValidationError` whose message is the fixed
text followed by that route's prefix, and no envelope record is
produced. -/
theorem ccpSerializeUpdate_badAuth (u : CcpRouteUpdateRequest) (now : Int)
    (h : ∃ r ∈ u.newRoutes, r.auth.length ≠ 32) :
    ∃ m, serializeCcpRouteUpdateRequest now u = .error (.validationError m)
      ∧ ∃ r ∈ u.newRoutes, r.auth.length ≠ 32
        ∧ m = strToCodes "route auth must be 32 bytes. prefix=" ++ r.pfx := by
  obtain ⟨m, hm, x, hx, hxa, hme⟩ := serializeRoutes_badAuth u.newRoutes h
  refine ⟨m, ?_, x, hx, hxa, hme⟩
  simp only [serializeCcpRouteUpdateRequest]
  rw [hm]
  rfl

theorem ccpSerializeUpdate_badAuth_witness :
    ∃ m, serializeCcpRouteUpdateRequest 0 exUpdateBad
        = .error (.validationError m)
      ∧ ∃ r ∈ exUpdateBad.newRoutes, r.auth.length ≠ 32
        ∧ m = strToCodes "route auth must be 32 bytes. prefix=" ++ r.pfx :=
  ccpSerializeUpdate_badAuth exUpdateBad 0 ⟨exRouteBad, by decide, by decide⟩

/-- C4: decoding a response raises `AuthenticationError` exactly when the
fulfillment differs from the fixed 32 zero bytes, and encoding a
response always produces that exact fulfillment with an empty data
payload. -/
theorem ccpResponse_fulfillment_check :
    (∀ f : IlpFulfill,
      (∃ m, deserializeCcpResponse f = .error (.authenticationError m))
        ↔ f.fulfillment ≠ List.replicate 32 0)
    ∧ serializeCcpResponse.fulfillment = List.replicate 32 0
    ∧ serializeCcpResponse.data = [] := by
  refine ⟨fun f => ?_, rfl, rfl⟩
  simp only [deserializeCcpResponse]
  by_cases h : f.fulfillment = List.replicate 32 0
  · rw [if_neg (by simp [PEER_PROTOCOL_FULFILLMENT, h])]
    constructor
    · rintro ⟨m, hm⟩
      simp at hm
    · intro hne
      exact absurd h hne
  · rw [if_pos (by
      simp only [PEER_PROTOCOL_FULFILLMENT, ne_eq]
      exact fun he => h he.symm)]
    exact ⟨fun _ => h, fun _ => ⟨_, rfl⟩⟩

/-- C5: for every valid control request, deserializing the serialized
request reproduces the speaker, routing table id, epoch and feature list
in order, assuming the external envelope codec round-trips (record
level) and decode happens within the expiry window. -/
theorem ccpControl_decode_encode (r : CcpRouteControlRequest)
    (h : ValidControl r) (now now' : Int)
    (ht : now' ≤ now + PEER_PROTOCOL_EXPIRY_DURATION) :
    deserializeCcpRouteControlRequest now'
      (serializeCcpRouteControlRequest now r) = .ok r :=
  control_roundtrip r h now now' ht

theorem ccpControl_decode_encode_witness :
    deserializeCcpRouteControlRequest 60000
        (serializeCcpRouteControlRequest 0 exControl) = .ok exControl
      ∧ exControl.speaker = [103, 46, 97, 108, 105, 99, 101]
      ∧ exControl.lastKnownRoutingTableId
        = [48, 48, 48, 48, 48, 48, 48, 48, 45, 48, 48, 48, 48, 45,
           48, 48, 48, 48, 45, 48, 48, 48, 48, 45,
           48, 48, 48, 48, 48, 48, 48, 48, 48, 48, 48, 48]
      ∧ exControl.lastKnownEpoch = 0 ∧ exControl.features = [] :=
  ⟨ccpControl_decode_encode exControl exControl_valid 0 60000 (by decide),
   by decide, by decide, rfl, rfl⟩

/-- C6: for every combination of input flags, the emitted property
metadata byte has the transitive bit (0x40 = 64) set only when the
well-known bit (0x80 = 128) is clear, the partial bit (0x20 = 32) set
only when the transitive bit is set and the well-known bit is clear, and
the four reserved low bits (0x0F = 15) always zero. -/
theorem ccpPropMeta_disciplined (p : CcpRouteProp) :
    (serializeProp p).head? = some (propMeta p)
      ∧ (propMeta p &&& 64 ≠ 0 → propMeta p &&& 128 = 0)
      ∧ (propMeta p &&& 32 ≠ 0 → propMeta p &&& 64 ≠ 0 ∧ propMeta p &&& 128 = 0)
      ∧ propMeta p &&& 15 = 0 := by
  refine ⟨?_, ?_⟩
  · simp [serializeProp, writeUInt8, Nat.mod_eq_of_lt (propMeta_lt p)]
  · obtain ⟨wk, tr, pa, pid, v⟩ := p
    cases v <;> cases wk <;> cases tr <;> cases pa <;>
      simp [propMeta, CcpRouteProp.isUtf8] <;> decide

theorem ccpPropMeta_disciplined_witness :
    propMeta exPropText &&& 64 ≠ 0 ∧ propMeta exPropText &&& 128 = 0
      ∧ propMeta exPropText &&& 15 = 0 :=
  ⟨((ccpPropMeta_disciplined exPropText).2.2.1 (by decide)).1,
   ((ccpPropMeta_disciplined exPropText).2.2.1 (by decide)).2,
   (ccpPropMeta_disciplined exPropText).2.2.2⟩

/-- C7: decoding an envelope whose destination is not the expected
literal raises `ProtocolMismatch` with the message naming the expected
CCP message type, for both request decoders. -/
theorem ccpDecode_wrongDestination (p q : IlpPrepare) (now : Int) :
    (p.destination ≠ CCP_CONTROL_DESTINATION →
      deserializeCcpRouteControlRequest now p
        = .error (.protocolMismatch "packet is not a CCP route control request."))
    ∧ (q.destination ≠ CCP_UPDATE_DESTINATION →
      deserializeCcpRouteUpdateRequest now q
        = .error (.protocolMismatch "packet is not a CCP route update request.")) := by
  constructor
  · intro h
    simp only [deserializeCcpRouteControlRequest]
    rw [if_pos h]
  · intro h
    simp only [deserializeCcpRouteUpdateRequest]
    rw [if_pos h]

theorem ccpDecode_wrongDestination_witness :
    deserializeCcpRouteControlRequest 0
        ⟨"0", "peer.route.update", PEER_PROTOCOL_CONDITION, 60000, []⟩
      = .error (.protocolMismatch "packet is not a CCP route control request.")
    ∧ deserializeCcpRouteUpdateRequest 0
        ⟨"0", "peer.route.control", PEER_PROTOCOL_CONDITION, 60000, []⟩
      = .error (.protocolMismatch "packet is not a CCP route update request.") :=
  ⟨(ccpDecode_wrongDestination
      ⟨"0", "peer.route.update", PEER_PROTOCOL_CONDITION, 60000, []⟩
      ⟨"0", "peer.route.control", PEER_PROTOCOL_CONDITION, 60000, []⟩ 0).1
        (by decide),
   (ccpDecode_wrongDestination
      ⟨"0", "peer.route.update", PEER_PROTOCOL_CONDITION, 60000, []⟩
      ⟨"0", "peer.route.control", PEER_PROTOCOL_CONDITION, 60000, []⟩ 0).2
        (by decide)⟩

/-- C8: decoding an envelope whose destination matches but whose
execution condition differs from the fixed peer-protocol condition
raises `AuthenticationError`, for both request decoders. -/
theorem ccpDecode_wrongCondition (p q : IlpPrepare) (now : Int) :
    (p.destination = CCP_CONTROL_DESTINATION →
      p.executionCondition ≠ PEER_PROTOCOL_CONDITION →
      deserializeCcpRouteControlRequest now p
        = .error (.authenticationError
          "packet does not contain correct condition for a peer protocol request."))
    ∧ (q.destination = CCP_UPDATE_DESTINATION →
      q.executionCondition ≠ PEER_PROTOCOL_CONDITION →
      deserializeCcpRouteUpdateRequest now q
        = .error (.authenticationError
          "packet does not contain correct condition for a peer protocol request.")) := by
  constructor
  · intro hd hc
    simp only [deserializeCcpRouteControlRequest]
    rw [if_neg (by simp [hd]), if_pos hc]
  · intro hd hc
    simp only [deserializeCcpRouteUpdateRequest]
    rw [if_neg (by simp [hd]), if_pos hc]

theorem ccpDecode_wrongCondition_witness :
    deserializeCcpRouteControlRequest 0
        ⟨"0", CCP_CONTROL_DESTINATION, [], 60000, []⟩
      = .error (.authenticationError
        "packet does not contain correct condition for a peer protocol request.")
    ∧ deserializeCcpRouteUpdateRequest 0
        ⟨"0", CCP_UPDATE_DESTINATION, [], 60000, []⟩
      = .error (.authenticationError
        "packet does not contain correct condition for a peer protocol request.") :=
  ⟨(ccpDecode_wrongCondition
      ⟨"0", CCP_CONTROL_DESTINATION, [], 60000, []⟩
      ⟨"0", CCP_UPDATE_DESTINATION, [], 60000, []⟩ 0).1 rfl (by decide),
   (ccpDecode_wrongCondition
      ⟨"0", CCP_CONTROL_DESTINATION, [], 60000, []⟩
      ⟨"0", CCP_UPDATE_DESTINATION, [], 60000, []⟩ 0).2 rfl (by decide)⟩

/-- C9: the codec never fails because of the relationship among the
three epoch indices: any valid update request — including one with
`fromEpochIndex > toEpochIndex` — serializes successfully and the three
32-bit values are read back unchanged. -/
theorem ccpUpdate_epochs_unconstrained (u : CcpRouteUpdateRequest)
    (hu : ValidUpdate u) (now now' : Int)
    (ht : now' ≤ now + PEER_PROTOCOL_EXPIRY_DURATION) :
    ∃ p, serializeCcpRouteUpdateRequest now u = .ok p
      ∧ ∃ u', deserializeCcpRouteUpdateRequest now' p = .ok u'
        ∧ u'.currentEpochIndex = u.currentEpochIndex
        ∧ u'.fromEpochIndex = u.fromEpochIndex
        ∧ u'.toEpochIndex = u.toEpochIndex := by
  obtain ⟨p, hs, hd⟩ := update_roundtrip u hu now now' ht
  exact ⟨p, hs, u, hd, rfl, rfl, rfl⟩

theorem ccpUpdate_epochs_unconstrained_witness :
    exUpdateEpochs.fromEpochIndex > exUpdateEpochs.toEpochIndex
      ∧ ∃ p, serializeCcpRouteUpdateRequest 0 exUpdateEpochs = .ok p
        ∧ ∃ u', deserializeCcpRouteUpdateRequest 0 p = .ok u'
          ∧ u'.currentEpochIndex = exUpdateEpochs.currentEpochIndex
          ∧ u'.fromEpochIndex = exUpdateEpochs.fromEpochIndex
          ∧ u'.toEpochIndex = exUpdateEpochs.toEpochIndex :=
  ⟨by decide,
    ccpUpdate_epochs_unconstrained exUpdateEpochs exUpdateEpochs_valid 0 0
      (by decide)⟩

/-- C10: neither request decoder inspects the envelope's amount: two
envelopes identical except for the amount decode to the same result,
record or error. -/
theorem ccpDecode_ignores_amount (p : IlpPrepare) (a : String) (now : Int) :
    deserializeCcpRouteControlRequest now { p with amount := a }
      = deserializeCcpRouteControlRequest now p
    ∧ deserializeCcpRouteUpdateRequest now { p with amount := a }
      = deserializeCcpRouteUpdateRequest now p := by
  obtain ⟨a0, dst, cond, e, d⟩ := p
  exact ⟨rfl, rfl⟩
